import Mathlib

/-!
Shallow embedding of `lawbridge_reference.py`: the LawBridge streaming
protocol decoder.  Bytes are modelled as `Nat`, text as `List Char`,
documents and the parser as records, and the mutating Python methods as
pure state-passing functions.  A Python `raise` inside `feed` is modelled
by returning the parser state at the moment of the raise together with
`some` error; `feed` stops at the first error, as the exception aborts the
Python loop.
-/

/-- Frame start byte (0x02). -/
def STX : Nat := 2

/-- Frame end byte (0x03). -/
def ETX : Nat := 3

/-- `CMD_LEN`: data bytes after the command letter, before ETX.
Command letters by ASCII code: P=80, N=78, F=70, T=84, R=82, E=69, D=68, K=75. -/
def cmdLen? (c : Nat) : Option Nat :=
  if c = 80 then some 2        -- 'P'  Page (little endian word)
  else if c = 78 then some 1   -- 'N'  Line
  else if c = 70 then some 1   -- 'F'  Format
  else if c = 84 then some 4   -- 'T'  Timecode [HH,MM,SS,FF]
  else if c = 82 then some 8   -- 'R'  Refresh: start TC[4] + end TC[4]
  else if c = 69 then some 0   -- 'E'  End refresh
  else if c = 68 then some 0   -- 'D'  Delete
  else if c = 75 then some 0   -- 'K'  Prevent save
  else none

inductive ParserState where
  | NORMAL
  | REFRESH
deriving DecidableEq

inductive RefreshMode where
  | BUFFER   -- Mode A: buffer then replace on E
  | STREAM   -- Mode B: in-place streaming insert during refresh
deriving DecidableEq

/-- Errors raised by `feed` (Python exceptions). -/
inductive LBErr where
  | framing        -- "Malformed frame ...: missing ETX" (ValueError)
  | nestedRefresh  -- "Nested refresh not supported" (RuntimeError)
  | badRPayload    -- "R payload must be 8 bytes" (ValueError)
deriving DecidableEq

/-- `Timecode`: [HH,MM,SS,FF] at 30 fps. -/
structure Timecode where
  hh : Nat
  mm : Nat
  ss : Nat
  ff : Nat
deriving DecidableEq

def Timecode.to_frames (t : Timecode) : Nat :=
  ((t.hh * 60 + t.mm) * 60 + t.ss) * 30 + t.ff

/-- `Timecode.from_bytes`.  The source raises ValueError unless the input has
length 4; every call site in the parser supplies exactly 4 bytes (the frame
machine hands `T` a 4-byte payload and splits `R`'s 8-byte payload in half),
so the embedding reads the four fields positionally. -/
def Timecode.from_bytes (b : List Nat) : Timecode :=
  ⟨b.getD 0 0, b.getD 1 0, b.getD 2 0, b.getD 3 0⟩

/-- Overwriting update of the `frame_count → offset` map
(`self.time_index[k] = v` on a Python dict). -/
def indexSet : List (Nat × Nat) → Nat → Nat → List (Nat × Nat)
  | [], k, v => [(k, v)]
  | (k', v') :: rest, k, v =>
      if k' = k then (k, v) :: rest else (k', v') :: indexSet rest k v

/-- `Document`: a text buffer with an insertion cursor, a timecode index and
latched page/line/format/prevent-save state. -/
structure Document where
  chars : List Char
  insertion : Nat
  time_index : List (Nat × Nat)
  current_page : Option Nat
  current_line : Option Nat
  current_format : Option Nat
  prevent_save : Bool
deriving DecidableEq

/-- `Document()`. -/
def Document.init : Document :=
  { chars := [], insertion := 0, time_index := [],
    current_page := none, current_line := none, current_format := none,
    prevent_save := false }

def Document.length (d : Document) : Nat := d.chars.length

def Document.text (d : Document) : List Char := d.chars

/-- `set_insertion`: clamp into `[0, len]` (`max(0, min(pos, len))`; the lower
clamp is the `Nat` floor). -/
def Document.set_insertion (d : Document) (pos : Nat) : Document :=
  { d with insertion := min pos d.chars.length }

def Document.get_insertion (d : Document) : Nat := d.insertion

/-- `insert_text`: insert `s` at the cursor, cursor advances by `len s`.
The source's element-by-element `list.insert` loop is the take/drop splice
below; on empty `s` both are the identity. -/
def Document.insert_text (d : Document) (s : List Char) : Document :=
  { d with
      chars := d.chars.take d.insertion ++ s ++ d.chars.drop d.insertion,
      insertion := d.insertion + s.length }

/-- `delete_backspace`: delete the character immediately before the insertion
point, but never before `lower_bound`.  (`del chars[insertion-1]` presumes
`insertion ≤ len chars`, which every operation maintains.) -/
def Document.delete_backspace (d : Document) (lower_bound : Nat) : Document :=
  if d.insertion > lower_bound ∧ d.insertion > 0 then
    { d with
        chars := d.chars.take (d.insertion - 1) ++ d.chars.drop d.insertion,
        insertion := d.insertion - 1 }
  else d

/-- `delete_range`: clamp both endpoints; if the range is nonempty remove it
and park the cursor at its start.  (`s`,`e` are the source's `start`,`end`;
the clamped values appear inline where the source rebinds its locals.) -/
def Document.delete_range (d : Document) (s e : Nat) : Document :=
  if min e d.chars.length > min s d.chars.length then
    { d with
        chars := d.chars.take (min s d.chars.length) ++
                 d.chars.drop (min e d.chars.length),
        insertion := min s d.chars.length }
  else d

/-- `on_page`: little-endian unsigned 16-bit from a 2-byte payload. -/
def Document.on_page (d : Document) (payload : List Nat) : Document :=
  { d with current_page := some (payload.getD 0 0 + 256 * payload.getD 1 0) }

def Document.on_line (d : Document) (payload : List Nat) : Document :=
  { d with current_line := some (payload.getD 0 0) }

def Document.on_format (d : Document) (payload : List Nat) : Document :=
  { d with current_format := some (payload.getD 0 0) }

/-- `on_timecode`: index the *current* insertion point. -/
def Document.on_timecode (d : Document) (tc : Timecode) : Document :=
  { d with time_index := indexSet d.time_index tc.to_frames d.insertion }

def Document.on_prevent_save (d : Document) : Document :=
  { d with prevent_save := true }

/-- The BUFFER-mode finalization sequence of `_on_refresh_end` on the main
document: `delete_range(start, end)`, `set_insertion(start)`,
`insert_text(buffer.text())`, then `prevent_save = buffer.prevent_save`. -/
def bufferReplace (d : Document) (s e : Nat) (buf : Document) : Document :=
  let d2 := ((d.delete_range s e).set_insertion s).insert_text buf.text
  { d2 with prevent_save := buf.prevent_save }

/-- `LawBridgeParser`: parser mode, main document, refresh bookkeeping and the
incremental frame-parse state. -/
structure LawBridgeParser where
  state : ParserState
  refresh_mode : RefreshMode
  doc : Document
  refresh_start_tc : Option Timecode
  refresh_end_tc : Option Timecode
  refresh_start_pos : Option Nat
  refresh_end_pos : Option Nat
  refresh_buffer : Option Document
  refresh_lower_bound : Nat
  frame_buf : List Nat
  in_cmd : Bool
  expected_len : Option Nat
  current_cmd : Option Nat
deriving DecidableEq

/-- `LawBridgeParser(refresh_mode=...)`. -/
def LawBridgeParser.init (mode : RefreshMode) : LawBridgeParser :=
  { state := .NORMAL, refresh_mode := mode, doc := Document.init,
    refresh_start_tc := none, refresh_end_tc := none,
    refresh_start_pos := none, refresh_end_pos := none,
    refresh_buffer := none, refresh_lower_bound := 0,
    frame_buf := [], in_cmd := false, expected_len := none,
    current_cmd := none }

namespace LawBridgeParser

def enterFrame (p : LawBridgeParser) : LawBridgeParser :=
  { p with in_cmd := true, current_cmd := none, expected_len := none,
           frame_buf := [] }

def exitFrame (p : LawBridgeParser) : LawBridgeParser :=
  { p with in_cmd := false, current_cmd := none, expected_len := none,
           frame_buf := [] }

/-- ASCII decode of one text byte: strict decode succeeds below 0x80; on
failure the source re-decodes with replacement, yielding U+FFFD. -/
def decodeTextByte (b : Nat) : Char :=
  if b < 128 then Char.ofNat b else Char.ofNat 0xFFFD

/-- Apply an edit to the active edit target, re-checking mode as every
handler in the source does: NORMAL → main doc; REFRESH+BUFFER → scratch;
REFRESH+STREAM → main doc.  The `none` scratch case is unreachable (the
source asserts it): a scratch exists whenever state is REFRESH in BUFFER
mode. -/
def applyToTarget (p : LawBridgeParser) (f : Document → Document) :
    LawBridgeParser :=
  match p.state with
  | .NORMAL => { p with doc := f p.doc }
  | .REFRESH =>
    match p.refresh_mode, p.refresh_buffer with
    | .BUFFER, some buf => { p with refresh_buffer := some (f buf) }
    | .BUFFER, none => p
    | .STREAM, _ => { p with doc := f p.doc }

/-- `_insert_text_bytes` for a single byte. -/
def insertTextByte (p : LawBridgeParser) (b : Nat) : LawBridgeParser :=
  applyToTarget p (fun d => d.insert_text [decodeTextByte b])

def onPage (p : LawBridgeParser) (payload : List Nat) : LawBridgeParser :=
  applyToTarget p (fun d => d.on_page payload)

def onLine (p : LawBridgeParser) (payload : List Nat) : LawBridgeParser :=
  applyToTarget p (fun d => d.on_line payload)

def onFormat (p : LawBridgeParser) (payload : List Nat) : LawBridgeParser :=
  applyToTarget p (fun d => d.on_format payload)

def onTimecode (p : LawBridgeParser) (payload : List Nat) : LawBridgeParser :=
  applyToTarget p (fun d => d.on_timecode (Timecode.from_bytes payload))

/-- `_on_delete`: backspace with lower bound 0 in NORMAL and on the BUFFER
scratch; `refresh_lower_bound` in STREAM refresh. -/
def onDelete (p : LawBridgeParser) : LawBridgeParser :=
  match p.state with
  | .NORMAL => { p with doc := p.doc.delete_backspace 0 }
  | .REFRESH =>
    match p.refresh_mode, p.refresh_buffer with
    | .BUFFER, some buf =>
        { p with refresh_buffer := some (buf.delete_backspace 0) }
    | .BUFFER, none => p
    | .STREAM, _ =>
        { p with doc := p.doc.delete_backspace p.refresh_lower_bound }

/-- `_on_prevent_save`: set the flag on the active target; in REFRESH also
copy the target's flag onto the main document. -/
def onPreventSave (p : LawBridgeParser) : LawBridgeParser :=
  match p.state with
  | .NORMAL => { p with doc := p.doc.on_prevent_save }
  | .REFRESH =>
    match p.refresh_mode, p.refresh_buffer with
    | .BUFFER, some buf =>
        let buf' := buf.on_prevent_save
        { p with refresh_buffer := some buf',
                 doc := { p.doc with prevent_save := buf'.prevent_save } }
    | .BUFFER, none => p
    | .STREAM, _ =>
        let d := p.doc.on_prevent_save
        { p with doc := { d with prevent_save := d.prevent_save } }

/-- Minimum of a list of keys (`min(...)` over a nonempty Python list). -/
def listMin? : List Nat → Option Nat
  | [] => none
  | k :: ks => some (ks.foldl min k)

/-- Maximum of a list of keys (`max(...)` over a nonempty Python list). -/
def listMax? : List Nat → Option Nat
  | [] => none
  | k :: ks => some (ks.foldl max k)

/-- The unclamped start anchor of `_resolve_time_range` (the local `s_pos`
before the final clamp).  The source's loop over `sorted(keys)` taking the
first `k ≥ start_frames` is the least such key, written here as the minimum
of the filtered key list; the `max(before_keys)` comprehension is the
corresponding maximum.  `time_index[k]` is assoc-list lookup (keys stay
unique under `indexSet`). -/
def startAnchor (doc : Document) (sf : Nat) : Nat :=
  let keys := doc.time_index.map Prod.fst
  match listMin? (keys.filter (fun k => sf ≤ k)) with
  | some k => (doc.time_index.lookup k).getD 0
  | none =>
    match listMax? (keys.filter (fun k => k ≤ sf)) with
    | some k => (doc.time_index.lookup k).getD 0
    | none => 0

/-- The unclamped end anchor of `_resolve_time_range` (the local `e_pos`
before the final clamp): `max(before_or_at)`, else `min(after_keys)`, else
the document length. -/
def endAnchor (doc : Document) (ef : Nat) : Nat :=
  let keys := doc.time_index.map Prod.fst
  match listMax? (keys.filter (fun k => k ≤ ef)) with
  | some k => (doc.time_index.lookup k).getD 0
  | none =>
    match listMin? (keys.filter (fun k => ef ≤ k)) with
    | some k => (doc.time_index.lookup k).getD 0
    | none => doc.length

/-- `_resolve_time_range`: swap the frame counts if reversed, shortcut an
empty index to `(0, length)`, otherwise anchor, clamp both into the
document, and swap if disordered. -/
def resolveTimeRange (doc : Document) (start_tc end_tc : Timecode) :
    Nat × Nat :=
  let sf0 := start_tc.to_frames
  let ef0 := end_tc.to_frames
  let sf := if ef0 < sf0 then ef0 else sf0
  let ef := if ef0 < sf0 then sf0 else ef0
  if doc.time_index = [] then (0, doc.length)
  else
    if min (endAnchor doc ef) doc.length < min (startAnchor doc sf) doc.length
    then (min (endAnchor doc ef) doc.length, min (startAnchor doc sf) doc.length)
    else (min (startAnchor doc sf) doc.length, min (endAnchor doc ef) doc.length)

/-- `_on_refresh_begin`: payload-length check, nested-refresh check, range
resolution, then mode-specific setup and the transition to REFRESH. -/
def onRefreshBegin (p : LawBridgeParser) (payload : List Nat) :
    LawBridgeParser × Option LBErr :=
  if payload.length ≠ 8 then (p, some .badRPayload)
  else if p.state = .REFRESH then (p, some .nestedRefresh)
  else
    let stc := Timecode.from_bytes (payload.take 4)
    let etc_ := Timecode.from_bytes (payload.drop 4)
    let sePair := resolveTimeRange p.doc stc etc_
    let p1 := { p with refresh_start_tc := some stc,
                       refresh_end_tc := some etc_,
                       refresh_start_pos := some sePair.1,
                       refresh_end_pos := some sePair.2 }
    let p2 :=
      match p1.refresh_mode with
      | .BUFFER =>
          { p1 with refresh_buffer := some (Document.init.set_insertion 0) }
      | .STREAM =>
          { p1 with
              doc := (p1.doc.delete_range sePair.1 sePair.2).set_insertion
                       sePair.1,
              refresh_lower_bound := sePair.1 }
    ({ p2 with state := .REFRESH }, none)

/-- `_on_refresh_end`: ignore outside REFRESH; in BUFFER mode atomically
replace the resolved range with the scratch text and copy `prevent_save`;
in STREAM mode park the cursor at the end; then clear all refresh state.
The wildcard row is unreachable (the source asserts the three fields):
they are set at `R` and cleared only here. -/
def onRefreshEnd (p : LawBridgeParser) : LawBridgeParser :=
  if p.state ≠ .REFRESH then p
  else
    let p1 :=
      match p.refresh_mode with
      | .BUFFER =>
        match p.refresh_start_pos, p.refresh_end_pos, p.refresh_buffer with
        | some s, some e, some buf =>
            { p with doc := bufferReplace p.doc s e buf }
        | _, _, _ => p
      | .STREAM => { p with doc := p.doc.set_insertion p.doc.length }
    { p1 with state := .NORMAL,
              refresh_start_tc := none, refresh_end_tc := none,
              refresh_start_pos := none, refresh_end_pos := none,
              refresh_buffer := none, refresh_lower_bound := 0 }

/-- `_dispatch_cmd`, in the source's order; unknown commands are ignored. -/
def dispatchCmd (p : LawBridgeParser) (c : Nat) (payload : List Nat) :
    LawBridgeParser × Option LBErr :=
  if c = 80 then (p.onPage payload, none)
  else if c = 78 then (p.onLine payload, none)
  else if c = 70 then (p.onFormat payload, none)
  else if c = 84 then (p.onTimecode payload, none)
  else if c = 68 then (p.onDelete, none)
  else if c = 75 then (p.onPreventSave, none)
  else if c = 82 then p.onRefreshBegin payload
  else if c = 69 then (p.onRefreshEnd, none)
  else (p, none)

/-- One iteration of the `feed` loop: consume one byte. -/
def processByte (p : LawBridgeParser) (b : Nat) :
    LawBridgeParser × Option LBErr :=
  if p.in_cmd then
    match p.current_cmd with
    | none =>
        -- first byte inside a frame is the command letter
        (match cmdLen? b with
         | none => { p with current_cmd := some b, expected_len := none }
         | some l => { p with current_cmd := some b, expected_len := some l },
         none)
    | some c =>
      match p.expected_len with
      | none =>
          -- unknown command: drain payload until ETX, then discard silently
          if b = ETX then (p.exitFrame, none)
          else ({ p with frame_buf := p.frame_buf ++ [b] }, none)
      | some l =>
          if p.frame_buf.length < l then
            ({ p with frame_buf := p.frame_buf ++ [b] }, none)
          else if b = ETX then
            match p.dispatchCmd c p.frame_buf with
            | (q, none) => (q.exitFrame, none)
            | (q, some err) => (q, some err)
          else (p, some .framing)
  else
    if b = STX then (p.enterFrame, none)
    else (p.insertTextByte b, none)

/-- `feed`: consume a chunk byte by byte; a raised error aborts the loop,
leaving the state reached at the moment of the raise. -/
def feedBytes (p : LawBridgeParser) : List Nat → LawBridgeParser × Option LBErr
  | [] => (p, none)
  | b :: bs =>
    match p.processByte b with
    | (q, none) => q.feedBytes bs
    | (q, some err) => (q, some err)

def document_text (p : LawBridgeParser) : List Char := p.doc.text

end LawBridgeParser

/-- A complete wire frame `STX ∥ cmd ∥ payload ∥ ETX`. -/
def frameBytes (cmd : Nat) (payload : List Nat) : List Nat :=
  STX :: cmd :: payload ++ [ETX]

namespace LawBridgeParser

/-- Feeding a concatenation equals feeding the pieces in order, provided the
first piece raises no error. -/
theorem feedBytes_append (a : List Nat) :
    ∀ (b : List Nat) (p q : LawBridgeParser), feedBytes p a = (q, none) →
      feedBytes p (a ++ b) = feedBytes q b := by
  induction a with
  | nil =>
    intro b p q h
    simp only [feedBytes, Prod.mk.injEq, and_true] at h
    rw [List.nil_append, h]
  | cons x xs ih =>
    intro b p q h
    rw [List.cons_append]
    rcases hx : p.processByte x with ⟨r, err⟩
    cases err with
    | none =>
      simp only [feedBytes, hx] at h ⊢
      exact ih b r q h
    | some e =>
      simp only [feedBytes, hx, Prod.mk.injEq] at h
      exact absurd h.2 (Option.some_ne_none e)

/-- While inside a recognized command whose payload is not yet complete, bytes
are accumulated verbatim into the frame buffer. -/
theorem feedBytes_fill (bs : List Nat) :
    ∀ (p : LawBridgeParser) (c l : Nat), p.in_cmd = true →
      p.current_cmd = some c → p.expected_len = some l →
      p.frame_buf.length + bs.length ≤ l →
      feedBytes p bs = ({ p with frame_buf := p.frame_buf ++ bs }, none) := by
  induction bs with
  | nil => intro p c l _ _ _ _; simp [feedBytes]
  | cons x xs ih =>
    intro p c l h1 h2 h3 h4
    have hlt : p.frame_buf.length < l := by
      simp only [List.length_cons] at h4; omega
    have hpb : p.processByte x =
        ({ p with frame_buf := p.frame_buf ++ [x] }, none) := by
      simp [processByte, h1, h2, h3, hlt]
    simp only [feedBytes, hpb]
    rw [ih _ c l (by simp [h1]) (by simp [h2]) (by simp [h3])
      (by simp only [List.length_cons] at h4; simp; omega)]
    simp

/-- The parser state in the middle of a frame: command letter recognized and
the whole payload accumulated, ETX still pending. -/
def midFrame (p : LawBridgeParser) (c l : Nat) (payload : List Nat) :
    LawBridgeParser :=
  { p with in_cmd := true, current_cmd := some c, expected_len := some l,
           frame_buf := payload }

/-- Feeding one complete frame of a recognized command from outside any frame
runs the frame machine to the dispatch point. -/
theorem feedBytes_known_frame (p : LawBridgeParser) (c l : Nat)
    (payload : List Nat) (hin : p.in_cmd = false) (hc : cmdLen? c = some l)
    (hlen : payload.length = l) :
    feedBytes p (frameBytes c payload) =
      match (dispatchCmd (midFrame p c l payload) c payload) with
      | (q, none) => (q.exitFrame, none)
      | (q, some err) => (q, some err) := by
  have h1 : p.processByte STX = (p.enterFrame, none) := by
    simp [processByte, hin]
  have h2 : (p.enterFrame).processByte c = (midFrame p c l [], none) := by
    simp [processByte, enterFrame, hc, midFrame]
  have h3 : feedBytes (midFrame p c l []) payload =
      (midFrame p c l payload, none) := by
    rw [feedBytes_fill payload _ c l rfl rfl rfl (by simp [midFrame, hlen])]
    simp [midFrame]
  have h4 : feedBytes p (frameBytes c payload) =
      feedBytes (midFrame p c l payload) [ETX] := by
    show feedBytes p (STX :: c :: (payload ++ [ETX])) = _
    simp only [feedBytes, h1, h2]
    exact feedBytes_append payload [ETX] _ _ h3
  rw [h4]
  have hnl : ¬ ((midFrame p c l payload).frame_buf.length < l) := by
    simp [midFrame, hlen]
  rcases hd : dispatchCmd (midFrame p c l payload) c payload with ⟨q, err⟩
  have hpb : (midFrame p c l payload).processByte ETX =
      (match (dispatchCmd (midFrame p c l payload) c payload) with
       | (q, none) => (q.exitFrame, none)
       | (q, some err) => (q, some err)) := by
    simp [processByte, midFrame, hlen]
  rw [hd] at hpb
  cases err with
  | none =>
    simp only [feedBytes, hpb, hd]
  | some e =>
    simp only [feedBytes, hpb, hd]

/-- The resolved range is ordered and clamped into the document. -/
theorem resolveTimeRange_bounds (doc : Document) (a b : Timecode)
    (s e : Nat) (h : resolveTimeRange doc a b = (s, e)) :
    s ≤ e ∧ e ≤ doc.chars.length := by
  rw [resolveTimeRange] at h
  by_cases hidx : doc.time_index = []
  · rw [if_pos hidx, Prod.mk.injEq, Document.length] at h
    omega
  · rw [if_neg hidx] at h
    generalize hu : startAnchor doc (if b.to_frames < a.to_frames
      then b.to_frames else a.to_frames) = u at h
    generalize hv : endAnchor doc (if b.to_frames < a.to_frames
      then a.to_frames else b.to_frames) = v at h
    rw [Document.length] at h
    split at h <;> (rw [Prod.mk.injEq] at h; omega)

/-- The observable main-document state (everything except `prevent_save`) and
the resolved positions agree between two parser states.  Used to show that a
BUFFER-mode refresh leaves the main document untouched until `E`. -/
structure MainFrozen (p q : LawBridgeParser) : Prop where
  chars : q.doc.chars = p.doc.chars
  insertion : q.doc.insertion = p.doc.insertion
  time_index : q.doc.time_index = p.doc.time_index
  page : q.doc.current_page = p.doc.current_page
  line : q.doc.current_line = p.doc.current_line
  fmt : q.doc.current_format = p.doc.current_format
  start_pos : q.refresh_start_pos = p.refresh_start_pos
  end_pos : q.refresh_end_pos = p.refresh_end_pos
  mode : q.refresh_mode = p.refresh_mode

theorem MainFrozen.rfl' (p : LawBridgeParser) : MainFrozen p p :=
  ⟨rfl, rfl, rfl, rfl, rfl, rfl, rfl, rfl, rfl⟩

theorem MainFrozen.trans' {p q r : LawBridgeParser}
    (a : MainFrozen p q) (b : MainFrozen q r) : MainFrozen p r :=
  ⟨b.chars.trans a.chars, b.insertion.trans a.insertion,
   b.time_index.trans a.time_index, b.page.trans a.page,
   b.line.trans a.line, b.fmt.trans a.fmt,
   b.start_pos.trans a.start_pos, b.end_pos.trans a.end_pos,
   b.mode.trans a.mode⟩

/-- In a BUFFER-mode refresh the active edit target is the scratch document,
so target edits only touch `refresh_buffer`. -/
theorem applyToTarget_some (p : LawBridgeParser) (f : Document → Document)
    (buf : Document) (hs : p.state = .REFRESH) (hm : p.refresh_mode = .BUFFER)
    (hb : p.refresh_buffer = some buf) :
    applyToTarget p f = { p with refresh_buffer := some (f buf) } := by
  simp [applyToTarget, hs, hm, hb]

/-- In NORMAL state the active edit target is the main document. -/
theorem applyToTarget_normal (p : LawBridgeParser) (f : Document → Document)
    (hs : p.state = .NORMAL) :
    applyToTarget p f = { p with doc := f p.doc } := by
  simp [applyToTarget, hs]

/-- In a STREAM-mode refresh the active edit target is the main document. -/
theorem applyToTarget_stream (p : LawBridgeParser) (f : Document → Document)
    (hs : p.state = .REFRESH) (hm : p.refresh_mode = .STREAM) :
    applyToTarget p f = { p with doc := f p.doc } := by
  simp [applyToTarget, hs, hm]

theorem frozen_applyToTarget (p : LawBridgeParser) (f : Document → Document)
    (hs : p.state = .REFRESH) (hm : p.refresh_mode = .BUFFER) :
    MainFrozen p (applyToTarget p f) := by
  constructor <;> (cases hb : p.refresh_buffer <;> simp [applyToTarget, hs, hm, hb])

theorem frozen_onDelete (p : LawBridgeParser) (hs : p.state = .REFRESH)
    (hm : p.refresh_mode = .BUFFER) : MainFrozen p p.onDelete := by
  constructor <;> (cases hb : p.refresh_buffer <;> simp [onDelete, hs, hm, hb])

theorem frozen_onPreventSave (p : LawBridgeParser) (hs : p.state = .REFRESH)
    (hm : p.refresh_mode = .BUFFER) : MainFrozen p p.onPreventSave := by
  constructor <;> (cases hb : p.refresh_buffer <;> simp [onPreventSave, hs, hm, hb])

theorem onRefreshEnd_state (p : LawBridgeParser) (hs : p.state = .REFRESH) :
    (p.onRefreshEnd).state = .NORMAL := by
  rw [onRefreshEnd, if_neg (by rw [hs]; simp)]

theorem frozen_dispatch (p q : LawBridgeParser) (c : Nat) (pl : List Nat)
    (hs : p.state = .REFRESH) (hm : p.refresh_mode = .BUFFER)
    (hd : p.dispatchCmd c pl = (q, none)) (hq : q.state = .REFRESH) :
    MainFrozen p q := by
  rw [dispatchCmd] at hd
  split at hd
  · injection hd with h1 _; subst h1
    exact frozen_applyToTarget p _ hs hm
  · split at hd
    · injection hd with h1 _; subst h1
      exact frozen_applyToTarget p _ hs hm
    · split at hd
      · injection hd with h1 _; subst h1
        exact frozen_applyToTarget p _ hs hm
      · split at hd
        · injection hd with h1 _; subst h1
          exact frozen_applyToTarget p _ hs hm
        · split at hd
          · injection hd with h1 _; subst h1
            exact frozen_onDelete p hs hm
          · split at hd
            · injection hd with h1 _; subst h1
              exact frozen_onPreventSave p hs hm
            · split at hd
              · -- 'R' while in REFRESH raises; no error-free outcome
                rw [onRefreshBegin] at hd
                split at hd <;>
                  (rw [Prod.mk.injEq] at hd
                   exact absurd hd.2 (Option.some_ne_none _))
              · split at hd
                · -- 'E' leaves REFRESH, contradicting hq
                  injection hd with h1 _; subst h1
                  rw [onRefreshEnd_state p hs] at hq
                  exact absurd hq (by decide)
                · injection hd with h1 _; subst h1
                  exact MainFrozen.rfl' p

theorem frozen_step (p q : LawBridgeParser) (b : Nat)
    (hs : p.state = .REFRESH) (hm : p.refresh_mode = .BUFFER)
    (hpb : p.processByte b = (q, none)) (hq : q.state = .REFRESH) :
    MainFrozen p q := by
  rw [processByte] at hpb
  by_cases hin : p.in_cmd
  · rw [if_pos hin] at hpb
    cases hcc : p.current_cmd with
    | none =>
      simp only [hcc] at hpb
      injection hpb with h1 _; subst h1
      cases hcl : cmdLen? b <;> (constructor <;> simp [hcl])
    | some c =>
      simp only [hcc] at hpb
      cases hel : p.expected_len with
      | none =>
        simp only [hel] at hpb
        split at hpb <;> (injection hpb with h1 _; subst h1) <;>
          (constructor <;> simp [exitFrame])
      | some l =>
        simp only [hel] at hpb
        split at hpb
        · injection hpb with h1 _; subst h1
          constructor <;> simp
        · split at hpb
          · rcases hd : p.dispatchCmd c p.frame_buf with ⟨r, err⟩
            simp only [hd] at hpb
            cases err with
            | none =>
              injection hpb with h1 _; subst h1
              have hr : r.state = .REFRESH := hq
              have hfz := frozen_dispatch p r c p.frame_buf hs hm hd hr
              exact MainFrozen.trans' hfz (by constructor <;> simp [exitFrame])
            | some e2 => simp at hpb
          · simp at hpb
  · rw [if_neg hin] at hpb
    split at hpb
    · injection hpb with h1 _; subst h1
      constructor <;> simp [enterFrame]
    · injection hpb with h1 _; subst h1
      exact frozen_applyToTarget p _ hs hm

/-- The fed bytes keep the parser inside REFRESH at every step (the frame
that ends the refresh has not yet been dispatched), with no error. -/
def staysRefresh (p : LawBridgeParser) : List Nat → Bool
  | [] => true
  | b :: bs =>
    if (p.processByte b).2 = none then
      if (p.processByte b).1.state = ParserState.REFRESH then
        staysRefresh (p.processByte b).1 bs
      else false
    else false

theorem frozen_feed (mid : List Nat) :
    ∀ (p q : LawBridgeParser), p.state = .REFRESH →
      p.refresh_mode = .BUFFER → feedBytes p mid = (q, none) →
      staysRefresh p mid = true → MainFrozen p q ∧ q.state = .REFRESH := by
  induction mid with
  | nil =>
    intro p q hs _ hf _
    simp only [feedBytes, Prod.mk.injEq, and_true] at hf
    subst hf
    exact ⟨MainFrozen.rfl' p, hs⟩
  | cons x xs ih =>
    intro p q hs hm hf hstay
    rcases hx : p.processByte x with ⟨r, err⟩
    rw [staysRefresh] at hstay
    simp only [hx] at hstay
    cases err with
    | some e => simp at hstay
    | none =>
      simp only [if_pos rfl] at hstay
      rw [feedBytes] at hf
      simp only [hx] at hf
      by_cases hr : r.state = ParserState.REFRESH
      · rw [if_pos hr] at hstay
        have hstep := frozen_step p r x hs hm hx hr
        have hrm : r.refresh_mode = .BUFFER := hstep.mode.trans hm
        obtain ⟨hmf, hqs⟩ := ih r q hr hrm hf hstay
        exact ⟨MainFrozen.trans' hstep hmf, hqs⟩
      · rw [if_neg hr] at hstay
        simp at hstay

/-- Effect of a complete `R` frame in NORMAL state, BUFFER mode. -/
theorem feed_R_buffer (p : LawBridgeParser) (pay : List Nat) (s e : Nat)
    (hst : p.state = .NORMAL) (hm : p.refresh_mode = .BUFFER)
    (hin : p.in_cmd = false) (hlen : pay.length = 8)
    (hres : resolveTimeRange p.doc (Timecode.from_bytes (pay.take 4))
      (Timecode.from_bytes (pay.drop 4)) = (s, e)) :
    feedBytes p (frameBytes 82 pay) =
      ({ p with
           state := .REFRESH,
           refresh_start_tc := some (Timecode.from_bytes (pay.take 4)),
           refresh_end_tc := some (Timecode.from_bytes (pay.drop 4)),
           refresh_start_pos := some s, refresh_end_pos := some e,
           refresh_buffer := some (Document.init.set_insertion 0),
           in_cmd := false, expected_len := none, current_cmd := none,
           frame_buf := [] }, none) := by
  rw [feedBytes_known_frame p 82 8 pay hin (by decide) hlen]
  have hd : dispatchCmd (midFrame p 82 8 pay) 82 pay =
      onRefreshBegin (midFrame p 82 8 pay) pay := by
    simp [dispatchCmd]
  rw [hd]
  have hb : onRefreshBegin (midFrame p 82 8 pay) pay =
      ({ midFrame p 82 8 pay with
           state := .REFRESH,
           refresh_start_tc := some (Timecode.from_bytes (pay.take 4)),
           refresh_end_tc := some (Timecode.from_bytes (pay.drop 4)),
           refresh_start_pos := some s, refresh_end_pos := some e,
           refresh_buffer := some (Document.init.set_insertion 0) }, none) := by
    rw [onRefreshBegin, if_neg (by simp [hlen]),
        if_neg (by simp [midFrame, hst])]
    simp [midFrame, hm, hres]
  rw [hb]
  simp [exitFrame, midFrame]

/-- Effect of a complete `R` frame in NORMAL state, STREAM mode. -/
theorem feed_R_stream (p : LawBridgeParser) (pay : List Nat) (s e : Nat)
    (hst : p.state = .NORMAL) (hm : p.refresh_mode = .STREAM)
    (hin : p.in_cmd = false) (hlen : pay.length = 8)
    (hres : resolveTimeRange p.doc (Timecode.from_bytes (pay.take 4))
      (Timecode.from_bytes (pay.drop 4)) = (s, e)) :
    feedBytes p (frameBytes 82 pay) =
      ({ p with
           state := .REFRESH,
           refresh_start_tc := some (Timecode.from_bytes (pay.take 4)),
           refresh_end_tc := some (Timecode.from_bytes (pay.drop 4)),
           refresh_start_pos := some s, refresh_end_pos := some e,
           doc := (p.doc.delete_range s e).set_insertion s,
           refresh_lower_bound := s,
           in_cmd := false, expected_len := none, current_cmd := none,
           frame_buf := [] }, none) := by
  rw [feedBytes_known_frame p 82 8 pay hin (by decide) hlen]
  have hd : dispatchCmd (midFrame p 82 8 pay) 82 pay =
      onRefreshBegin (midFrame p 82 8 pay) pay := by
    simp [dispatchCmd]
  rw [hd]
  have hb : onRefreshBegin (midFrame p 82 8 pay) pay =
      ({ midFrame p 82 8 pay with
           state := .REFRESH,
           refresh_start_tc := some (Timecode.from_bytes (pay.take 4)),
           refresh_end_tc := some (Timecode.from_bytes (pay.drop 4)),
           refresh_start_pos := some s, refresh_end_pos := some e,
           doc := (p.doc.delete_range s e).set_insertion s,
           refresh_lower_bound := s }, none) := by
    rw [onRefreshBegin, if_neg (by simp [hlen]),
        if_neg (by simp [midFrame, hst])]
    simp [midFrame, hm, hres]
  rw [hb]
  simp [exitFrame, midFrame]

/-- Effect of a complete `E` frame during a BUFFER-mode refresh. -/
theorem feed_E_buffer (p : LawBridgeParser) (s e : Nat) (buf : Document)
    (hst : p.state = .REFRESH) (hm : p.refresh_mode = .BUFFER)
    (hin : p.in_cmd = false) (hsp : p.refresh_start_pos = some s)
    (hep : p.refresh_end_pos = some e) (hbuf : p.refresh_buffer = some buf) :
    feedBytes p (frameBytes 69 []) =
      ({ p with
           doc := bufferReplace p.doc s e buf,
           state := .NORMAL, refresh_start_tc := none, refresh_end_tc := none,
           refresh_start_pos := none, refresh_end_pos := none,
           refresh_buffer := none, refresh_lower_bound := 0,
           in_cmd := false, expected_len := none, current_cmd := none,
           frame_buf := [] }, none) := by
  rw [feedBytes_known_frame p 69 0 [] hin (by decide) rfl]
  have hd : dispatchCmd (midFrame p 69 0 []) 69 [] =
      ((midFrame p 69 0 []).onRefreshEnd, none) := by
    simp [dispatchCmd]
  rw [hd]
  have hb : (midFrame p 69 0 []).onRefreshEnd =
      { midFrame p 69 0 [] with
           doc := bufferReplace p.doc s e buf,
           state := .NORMAL, refresh_start_tc := none, refresh_end_tc := none,
           refresh_start_pos := none, refresh_end_pos := none,
           refresh_buffer := none, refresh_lower_bound := 0 } := by
    rw [onRefreshEnd, if_neg (by simp [midFrame, hst])]
    simp [midFrame, hm, hsp, hep, hbuf]
  rw [hb]
  simp [exitFrame, midFrame]

/-- Effect of a complete `E` frame during a STREAM-mode refresh. -/
theorem feed_E_stream (p : LawBridgeParser)
    (hst : p.state = .REFRESH) (hm : p.refresh_mode = .STREAM)
    (hin : p.in_cmd = false) :
    feedBytes p (frameBytes 69 []) =
      ({ p with
           doc := p.doc.set_insertion p.doc.length,
           state := .NORMAL, refresh_start_tc := none, refresh_end_tc := none,
           refresh_start_pos := none, refresh_end_pos := none,
           refresh_buffer := none, refresh_lower_bound := 0,
           in_cmd := false, expected_len := none, current_cmd := none,
           frame_buf := [] }, none) := by
  rw [feedBytes_known_frame p 69 0 [] hin (by decide) rfl]
  have hd : dispatchCmd (midFrame p 69 0 []) 69 [] =
      ((midFrame p 69 0 []).onRefreshEnd, none) := by
    simp [dispatchCmd]
  rw [hd]
  have hb : (midFrame p 69 0 []).onRefreshEnd =
      { midFrame p 69 0 [] with
           doc := p.doc.set_insertion p.doc.length,
           state := .NORMAL, refresh_start_tc := none, refresh_end_tc := none,
           refresh_start_pos := none, refresh_end_pos := none,
           refresh_buffer := none, refresh_lower_bound := 0 } := by
    rw [onRefreshEnd, if_neg (by simp [midFrame, hst])]
    simp [midFrame, hm]
  rw [hb]
  simp [exitFrame, midFrame]

/-- Effect of a complete `K` frame during a BUFFER-mode refresh: the flag is
set on the scratch and mirrored to the main document. -/
theorem feed_K_refresh_buffer (p : LawBridgeParser) (buf : Document)
    (hst : p.state = .REFRESH) (hm : p.refresh_mode = .BUFFER)
    (hin : p.in_cmd = false) (hbuf : p.refresh_buffer = some buf) :
    feedBytes p (frameBytes 75 []) =
      ({ p with
           refresh_buffer := some { buf with prevent_save := true },
           doc := { p.doc with prevent_save := true },
           in_cmd := false, expected_len := none, current_cmd := none,
           frame_buf := [] }, none) := by
  rw [feedBytes_known_frame p 75 0 [] hin (by decide) rfl]
  have hd : dispatchCmd (midFrame p 75 0 []) 75 [] =
      ((midFrame p 75 0 []).onPreventSave, none) := by
    simp [dispatchCmd]
  rw [hd]
  have hb : (midFrame p 75 0 []).onPreventSave =
      { midFrame p 75 0 [] with
           refresh_buffer := some { buf with prevent_save := true },
           doc := { p.doc with prevent_save := true } } := by
    simp [onPreventSave, midFrame, hst, hm, hbuf, Document.on_prevent_save]
  rw [hb]
  simp [exitFrame, midFrame]

/-- Effect of a complete `K` frame during a STREAM-mode refresh: the flag is
set on the main document (the self-mirror is the identity). -/
theorem feed_K_refresh_stream (p : LawBridgeParser)
    (hst : p.state = .REFRESH) (hm : p.refresh_mode = .STREAM)
    (hin : p.in_cmd = false) :
    feedBytes p (frameBytes 75 []) =
      ({ p with
           doc := { p.doc with prevent_save := true },
           in_cmd := false, expected_len := none, current_cmd := none,
           frame_buf := [] }, none) := by
  rw [feedBytes_known_frame p 75 0 [] hin (by decide) rfl]
  have hd : dispatchCmd (midFrame p 75 0 []) 75 [] =
      ((midFrame p 75 0 []).onPreventSave, none) := by
    simp [dispatchCmd]
  rw [hd]
  have hb : (midFrame p 75 0 []).onPreventSave =
      { midFrame p 75 0 [] with
           doc := { p.doc with prevent_save := true } } := by
    simp [onPreventSave, midFrame, hst, hm, Document.on_prevent_save]
  rw [hb]
  simp [exitFrame, midFrame]

end LawBridgeParser

/-- Deleting `[s, e)` (with `s ≤ e ≤ length`) and parking the cursor at `s`
splices the character list and puts the cursor at `s`. -/
theorem delete_set_chain (d : Document) (s e : Nat) (hse : s ≤ e)
    (heL : e ≤ d.chars.length) :
    ((d.delete_range s e).set_insertion s).chars
      = d.chars.take s ++ d.chars.drop e ∧
    ((d.delete_range s e).set_insertion s).insertion = s := by
  have h1 : min s d.chars.length = s := by omega
  have h2 : min e d.chars.length = e := by omega
  rw [Document.delete_range, h1, h2]
  by_cases hlt : e > s
  · rw [if_pos hlt]
    constructor
    · rfl
    · simp [Document.set_insertion, List.length_take, List.length_drop]
      omega
  · have hes : e = s := by omega
    rw [if_neg hlt]
    subst hes
    constructor
    · simp [Document.set_insertion, List.take_append_drop]
    · simp [Document.set_insertion]
      omega

/-- The full BUFFER-mode replacement: the main document's characters become
prefix ∥ scratch text ∥ suffix, with the corresponding length identity. -/
theorem bufferReplace_chars (d : Document) (s e : Nat) (buf : Document)
    (hse : s ≤ e) (heL : e ≤ d.chars.length) :
    (bufferReplace d s e buf).chars
      = d.chars.take s ++ buf.text ++ d.chars.drop e ∧
    (bufferReplace d s e buf).chars.length
      = d.chars.length - (e - s) + buf.text.length := by
  obtain ⟨hc, hi⟩ := delete_set_chain d s e hse heL
  have htk : (d.chars.take s).length = s := by
    simp [List.length_take]; omega
  have hmain : (bufferReplace d s e buf).chars
      = d.chars.take s ++ buf.text ++ d.chars.drop e := by
    show (((d.delete_range s e).set_insertion s).chars.take
        ((d.delete_range s e).set_insertion s).insertion ++ buf.text ++
        ((d.delete_range s e).set_insertion s).chars.drop
        ((d.delete_range s e).set_insertion s).insertion) = _
    rw [hc, hi]
    rw [List.take_append_of_le_length (by omega),
        List.drop_append_of_le_length (by omega)]
    rw [List.take_take, Nat.min_self]
    have hdrop : List.drop s (d.chars.take s) = [] :=
      List.drop_eq_nil_iff.mpr (le_of_eq htk)
    rw [hdrop]
    simp
  refine ⟨hmain, ?_⟩
  rw [hmain]
  simp [List.length_append, List.length_take, List.length_drop]
  omega

/-- The document cursor invariant: the insertion offset never exceeds the
character count.  (`0 ≤ insertion` is the `Nat` embedding of the lower
clamp.) -/
def docOK (d : Document) : Prop := d.insertion ≤ d.chars.length

theorem docOK_init : docOK Document.init := by
  simp [docOK, Document.init]

theorem docOK_set_insertion (d : Document) (n : Nat) :
    docOK (d.set_insertion n) := by
  simp [docOK, Document.set_insertion]

theorem docOK_insert_text (d : Document) (s : List Char) (h : docOK d) :
    docOK (d.insert_text s) := by
  simp [docOK, Document.insert_text, List.length_append, List.length_take,
    List.length_drop] at *
  omega

theorem docOK_delete_backspace (d : Document) (lb : Nat) (h : docOK d) :
    docOK (d.delete_backspace lb) := by
  rw [Document.delete_backspace]
  split
  · simp [docOK, List.length_append, List.length_take,
      List.length_drop] at *
    omega
  · exact h

theorem docOK_delete_range (d : Document) (s e : Nat) (h : docOK d) :
    docOK (d.delete_range s e) := by
  rw [Document.delete_range]
  split
  · simp [docOK, List.length_append, List.length_take, List.length_drop]
  · exact h

theorem docOK_bufferReplace (d : Document) (s e : Nat) (buf : Document) :
    docOK (bufferReplace d s e buf) :=
  docOK_insert_text _ _ (docOK_set_insertion _ _)

/-- Both the main document and, when present, the scratch document satisfy
the cursor invariant. -/
def parserOK (p : LawBridgeParser) : Prop :=
  docOK p.doc ∧ ∀ buf, p.refresh_buffer = some buf → docOK buf

namespace LawBridgeParser

theorem parserOK_init (mode : RefreshMode) :
    parserOK (LawBridgeParser.init mode) := by
  refine ⟨docOK_init, fun buf h => ?_⟩
  simp [LawBridgeParser.init] at h

theorem parserOK_applyToTarget (p : LawBridgeParser) (f : Document → Document)
    (hf : ∀ d, docOK d → docOK (f d)) (hp : parserOK p) :
    parserOK (applyToTarget p f) := by
  obtain ⟨hdoc, hbuf⟩ := hp
  rw [applyToTarget]
  cases hst : p.state
  · exact ⟨hf _ hdoc, hbuf⟩
  · cases hmm : p.refresh_mode
    · cases hb : p.refresh_buffer with
      | none => exact ⟨hdoc, hbuf⟩
      | some buf =>
        refine ⟨hdoc, fun b2 h2 => ?_⟩
        have : f buf = b2 := by simpa using h2
        exact this ▸ hf buf (hbuf buf hb)
    · exact ⟨hf _ hdoc, hbuf⟩

theorem parserOK_onDelete (p : LawBridgeParser) (hp : parserOK p) :
    parserOK p.onDelete := by
  obtain ⟨hdoc, hbuf⟩ := hp
  rw [onDelete]
  cases hst : p.state
  · exact ⟨docOK_delete_backspace _ _ hdoc, hbuf⟩
  · cases hmm : p.refresh_mode
    · cases hb : p.refresh_buffer with
      | none => exact ⟨hdoc, hbuf⟩
      | some buf =>
        refine ⟨hdoc, fun b2 h2 => ?_⟩
        have : buf.delete_backspace 0 = b2 := by simpa using h2
        exact this ▸ docOK_delete_backspace _ _ (hbuf buf hb)
    · exact ⟨docOK_delete_backspace _ _ hdoc, hbuf⟩

theorem parserOK_onPreventSave (p : LawBridgeParser) (hp : parserOK p) :
    parserOK p.onPreventSave := by
  obtain ⟨hdoc, hbuf⟩ := hp
  rw [onPreventSave]
  cases hst : p.state
  · exact ⟨hdoc, hbuf⟩
  · cases hmm : p.refresh_mode
    · cases hb : p.refresh_buffer with
      | none => exact ⟨hdoc, hbuf⟩
      | some buf =>
        refine ⟨hdoc, fun b2 h2 => ?_⟩
        have : buf.on_prevent_save = b2 := by simpa using h2
        exact this ▸ hbuf buf hb
    · exact ⟨hdoc, hbuf⟩

theorem parserOK_onRefreshBegin (p : LawBridgeParser) (pl : List Nat)
    (hp : parserOK p) : parserOK (p.onRefreshBegin pl).1 := by
  obtain ⟨hdoc, hbuf⟩ := hp
  rw [onRefreshBegin]
  split
  · exact ⟨hdoc, hbuf⟩
  · split
    · exact ⟨hdoc, hbuf⟩
    · cases hmm : p.refresh_mode
      · refine ⟨hdoc, fun b2 h2 => ?_⟩
        have : Document.init.set_insertion 0 = b2 := by simpa using h2
        exact this ▸ docOK_set_insertion _ _
      · exact ⟨docOK_set_insertion _ _, hbuf⟩

theorem parserOK_onRefreshEnd (p : LawBridgeParser) (hp : parserOK p) :
    parserOK p.onRefreshEnd := by
  obtain ⟨hdoc, hbuf⟩ := hp
  rw [onRefreshEnd]
  split
  · exact ⟨hdoc, hbuf⟩
  · cases hmm : p.refresh_mode
    · rcases hsp : p.refresh_start_pos with _ | s <;>
        rcases hep : p.refresh_end_pos with _ | e <;>
        rcases hb : p.refresh_buffer with _ | buf <;>
        simp only [hsp, hep, hb] <;>
        exact ⟨by first
                | exact hdoc
                | exact docOK_bufferReplace _ _ _ _,
               fun b2 h2 => by simp at h2⟩
    · exact ⟨docOK_set_insertion _ _, fun b2 h2 => by simp at h2⟩

theorem parserOK_dispatch (p : LawBridgeParser) (c : Nat) (pl : List Nat)
    (hp : parserOK p) : parserOK (p.dispatchCmd c pl).1 := by
  rw [dispatchCmd]
  split
  · exact parserOK_applyToTarget p _ (fun d h => h) hp
  · split
    · exact parserOK_applyToTarget p _ (fun d h => h) hp
    · split
      · exact parserOK_applyToTarget p _ (fun d h => h) hp
      · split
        · exact parserOK_applyToTarget p _ (fun d h => h) hp
        · split
          · exact parserOK_onDelete p hp
          · split
            · exact parserOK_onPreventSave p hp
            · split
              · exact parserOK_onRefreshBegin p pl hp
              · split
                · exact parserOK_onRefreshEnd p hp
                · exact hp

theorem parserOK_step (p : LawBridgeParser) (b : Nat) (hp : parserOK p) :
    parserOK (p.processByte b).1 := by
  obtain ⟨hdoc, hbuf⟩ := hp
  rw [processByte]
  by_cases hin : p.in_cmd
  · rw [if_pos hin]
    rcases hcc : p.current_cmd with _ | c <;> simp only [hcc]
    · rcases hcl : cmdLen? b with _ | l <;> simp only [hcl] <;>
        exact ⟨hdoc, hbuf⟩
    · rcases hel : p.expected_len with _ | l <;> simp only [hel]
      · split <;> exact ⟨hdoc, hbuf⟩
      · split
        · exact ⟨hdoc, hbuf⟩
        · split
          · rcases hd : p.dispatchCmd c p.frame_buf with ⟨r, err⟩
            have hr : parserOK r := by
              have := parserOK_dispatch p c p.frame_buf ⟨hdoc, hbuf⟩
              rw [hd] at this
              exact this
            try simp only [hd]
            cases err <;> exact hr
          · exact ⟨hdoc, hbuf⟩
  · rw [if_neg hin]
    split
    · exact ⟨hdoc, hbuf⟩
    · exact parserOK_applyToTarget p _
        (fun d h => docOK_insert_text d _ h) ⟨hdoc, hbuf⟩

theorem parserOK_feed (bs : List Nat) :
    ∀ (p : LawBridgeParser), parserOK p → parserOK (p.feedBytes bs).1 := by
  induction bs with
  | nil => intro p hp; exact hp
  | cons x xs ih =>
    intro p hp
    rcases hx : p.processByte x with ⟨r, err⟩
    have hr : parserOK r := by
      have := parserOK_step p x hp
      rw [hx] at this
      exact this
    cases err with
    | none =>
      rw [feedBytes]
      simp only [hx]
      exact ih r hr
    | some e =>
      rw [feedBytes]
      simp only [hx]
      exact hr

end LawBridgeParser

open LawBridgeParser

/-- Transcription of the specification's range-resolution policy, written
from the spec's sentences for comparison with the source's
`_resolve_time_range`: swap the two frame counts if start > end; the start
anchor is the stored offset of the smallest key `k ≥ start_frames`, else of
the largest key `k ≤ start_frames`, else `0` if the index is empty; the end
anchor is the stored offset of the largest key `k ≤ end_frames`, else of
the smallest key `k ≥ end_frames`, else `length()` if the index is empty;
both results are clamped into `[0, length]` and swapped if disordered. -/
def resolveTimeRangeSpec (doc : Document) (start_tc end_tc : Timecode) :
    Nat × Nat :=
  let sf := min start_tc.to_frames end_tc.to_frames
  let ef := max start_tc.to_frames end_tc.to_frames
  let keys := doc.time_index.map Prod.fst
  let startRaw :=
    match listMin? (keys.filter (fun k => sf ≤ k)) with
    | some k => (doc.time_index.lookup k).getD 0
    | none =>
      match listMax? (keys.filter (fun k => k ≤ sf)) with
      | some k => (doc.time_index.lookup k).getD 0
      | none => 0
  let endRaw :=
    match listMax? (keys.filter (fun k => k ≤ ef)) with
    | some k => (doc.time_index.lookup k).getD 0
    | none =>
      match listMin? (keys.filter (fun k => ef ≤ k)) with
      | some k => (doc.time_index.lookup k).getD 0
      | none => doc.length
  let s_pos := min startRaw doc.length
  let e_pos := min endRaw doc.length
  if e_pos < s_pos then (e_pos, s_pos) else (s_pos, e_pos)

/-- C1: the source's `_resolve_time_range` realizes exactly the claimed
policy — frame counts swapped first if reversed, start anchored at-or-after
with before fallback (0 on an empty index), end anchored before-or-at with
after fallback (length on an empty index), both clamped into [0, length]
and swapped if the resolved positions are disordered. -/
theorem c1_range_resolution (doc : Document) (a b : Timecode) :
    resolveTimeRange doc a b = resolveTimeRangeSpec doc a b := by
  rw [resolveTimeRange, resolveTimeRangeSpec]
  have hsf : (if b.to_frames < a.to_frames then b.to_frames else a.to_frames)
      = min a.to_frames b.to_frames := by
    rcases Nat.lt_or_ge b.to_frames a.to_frames with h | h
    · rw [if_pos h, Nat.min_eq_right (Nat.le_of_lt h)]
    · rw [if_neg (Nat.not_lt.mpr h), Nat.min_eq_left h]
  have hef : (if b.to_frames < a.to_frames then a.to_frames else b.to_frames)
      = max a.to_frames b.to_frames := by
    rcases Nat.lt_or_ge b.to_frames a.to_frames with h | h
    · rw [if_pos h, Nat.max_eq_left (Nat.le_of_lt h)]
    · rw [if_neg (Nat.not_lt.mpr h), Nat.max_eq_right h]
  rw [hsf, hef]
  by_cases hidx : doc.time_index = []
  · rw [if_pos hidx, hidx]
    simp [listMin?, listMax?, Document.length]
  · rw [if_neg hidx]
    simp only [startAnchor, endAnchor]

/-- C2: a BUFFER-mode refresh is an atomic replacement: from NORMAL, a valid
`R` frame resolving to `(s, e)`, any error-free bytes that stay inside the
refresh and leave scratch text `X`, then `E`, leave the main document's
characters equal to `old[0:s] ∥ X ∥ old[e:]`, so the length changes by
`−(e−s) + |X|`. -/
theorem c2_buffer_refresh_atomic
    (p p1 p2 : LawBridgeParser) (pay mid : List Nat) (s e : Nat)
    (X : List Char)
    (hst : p.state = .NORMAL) (hm : p.refresh_mode = .BUFFER)
    (hin : p.in_cmd = false) (hlen : pay.length = 8)
    (hres : resolveTimeRange p.doc (Timecode.from_bytes (pay.take 4))
      (Timecode.from_bytes (pay.drop 4)) = (s, e))
    (h1 : feedBytes p (frameBytes 82 pay) = (p1, none))
    (h2 : feedBytes p1 mid = (p2, none))
    (hstay : staysRefresh p1 mid = true)
    (hX : p2.refresh_buffer.map Document.text = some X)
    (hin2 : p2.in_cmd = false) :
    (feedBytes p2 (frameBytes 69 [])).2 = none ∧
    (feedBytes p2 (frameBytes 69 [])).1.doc.chars
      = p.doc.chars.take s ++ X ++ p.doc.chars.drop e ∧
    (feedBytes p2 (frameBytes 69 [])).1.doc.chars.length
      = p.doc.chars.length - (e - s) + X.length := by
  have hp1 := feed_R_buffer p pay s e hst hm hin hlen hres
  have hp1eq : p1 = { p with
      state := .REFRESH,
      refresh_start_tc := some (Timecode.from_bytes (pay.take 4)),
      refresh_end_tc := some (Timecode.from_bytes (pay.drop 4)),
      refresh_start_pos := some s, refresh_end_pos := some e,
      refresh_buffer := some (Document.init.set_insertion 0),
      in_cmd := false, expected_len := none, current_cmd := none,
      frame_buf := [] } :=
    congrArg Prod.fst (h1.symm.trans hp1)
  obtain ⟨hfz, hp2st⟩ := frozen_feed mid p1 p2
    (by rw [hp1eq]) (by rw [hp1eq]; exact hm) h2 hstay
  rcases hXb : p2.refresh_buffer with _ | buf
  · rw [hXb] at hX; simp at hX
  · rw [hXb] at hX
    have hbufX : buf.text = X := by simpa using hX
    have hm2 : p2.refresh_mode = .BUFFER := by
      rw [hfz.mode, hp1eq]; exact hm
    have hsp2 : p2.refresh_start_pos = some s := by
      rw [hfz.start_pos, hp1eq]
    have hep2 : p2.refresh_end_pos = some e := by
      rw [hfz.end_pos, hp1eq]
    have hE := feed_E_buffer p2 s e buf hp2st hm2 hin2 hsp2 hep2 hXb
    rw [hE]
    have hb2 := resolveTimeRange_bounds p.doc _ _ s e hres
    have hchars2 : p2.doc.chars = p.doc.chars := by
      rw [hfz.chars, hp1eq]
    obtain ⟨hch, hlen2⟩ := bufferReplace_chars p2.doc s e buf hb2.1
      (by rw [hchars2]; exact hb2.2)
    refine ⟨rfl, ?_, ?_⟩
    · show (bufferReplace p2.doc s e buf).chars = _
      rw [hch, hchars2, hbufX]
    · show (bufferReplace p2.doc s e buf).chars.length = _
      rw [hlen2, hchars2, hbufX]

/-- C3: a STREAM-mode refresh deletes the resolved range immediately at `R`,
parks the cursor at its start and sets the destructive-edit lower bound
there; the matching `E` moves the cursor to the end of the main document
and returns to NORMAL. -/
theorem c3_stream_refresh :
    (∀ (p : LawBridgeParser) (pay : List Nat) (s e : Nat),
      p.state = .NORMAL → p.refresh_mode = .STREAM → p.in_cmd = false →
      pay.length = 8 →
      resolveTimeRange p.doc (Timecode.from_bytes (pay.take 4))
        (Timecode.from_bytes (pay.drop 4)) = (s, e) →
      (feedBytes p (frameBytes 82 pay)).2 = none ∧
      (feedBytes p (frameBytes 82 pay)).1.doc.chars
        = p.doc.chars.take s ++ p.doc.chars.drop e ∧
      (feedBytes p (frameBytes 82 pay)).1.doc.insertion = s ∧
      (feedBytes p (frameBytes 82 pay)).1.refresh_lower_bound = s ∧
      (feedBytes p (frameBytes 82 pay)).1.state = .REFRESH) ∧
    (∀ q : LawBridgeParser, q.state = .REFRESH → q.refresh_mode = .STREAM →
      q.in_cmd = false →
      (feedBytes q (frameBytes 69 [])).2 = none ∧
      (feedBytes q (frameBytes 69 [])).1.doc.insertion
        = q.doc.chars.length ∧
      (feedBytes q (frameBytes 69 [])).1.doc.chars = q.doc.chars ∧
      (feedBytes q (frameBytes 69 [])).1.state = .NORMAL) := by
  constructor
  · intro p pay s e hst hm hin hlen hres
    rw [feed_R_stream p pay s e hst hm hin hlen hres]
    have hb := resolveTimeRange_bounds p.doc _ _ s e hres
    obtain ⟨hc, hi⟩ := delete_set_chain p.doc s e hb.1 hb.2
    exact ⟨rfl, hc, hi, rfl, rfl⟩
  · intro q hst hm hin
    rw [feed_E_stream q hst hm hin]
    refine ⟨rfl, ?_, rfl, rfl⟩
    show (q.doc.set_insertion q.doc.length).insertion = _
    simp [Document.set_insertion, Document.length]

/-- C4: chunking equivalence — feeding a concatenation is the same as
feeding the pieces in sequence, across frame and refresh boundaries,
provided the first piece raises no error. -/
theorem c4_chunking (p q : LawBridgeParser) (a b : List Nat)
    (h : feedBytes p a = (q, none)) :
    feedBytes p (a ++ b) = feedBytes q b :=
  feedBytes_append a b p q h

/-- C5: a complete `R` frame fed to a parser already in REFRESH raises the
nested-refresh error synchronously and leaves the main document (characters,
cursor, time index, and latched state) entirely unchanged. -/
theorem c5_nested_refresh (p : LawBridgeParser) (pay : List Nat)
    (hst : p.state = .REFRESH) (hin : p.in_cmd = false)
    (hlen : pay.length = 8) :
    (feedBytes p (frameBytes 82 pay)).2 = some .nestedRefresh ∧
    (feedBytes p (frameBytes 82 pay)).1.doc = p.doc := by
  rw [feedBytes_known_frame p 82 8 pay hin (by decide) hlen]
  have hd : dispatchCmd (midFrame p 82 8 pay) 82 pay =
      onRefreshBegin (midFrame p 82 8 pay) pay := by
    simp [dispatchCmd]
  rw [hd, onRefreshBegin, if_neg (by simp [hlen]),
      if_pos (show (midFrame p 82 8 pay).state = .REFRESH by
        simp [midFrame, hst])]
  exact ⟨rfl, rfl⟩

/-- C6: for every constructed parser and every fed byte sequence, after each
byte the insertion cursor of the main document — and of the scratch
document when one exists — lies within `[0, length]` (the lower bound is
the `Nat` embedding). -/
theorem c6_cursor_invariant (mode : RefreshMode) (s : List Nat) (i : Nat) :
    docOK ((LawBridgeParser.init mode).feedBytes (s.take i)).1.doc ∧
    ∀ buf, ((LawBridgeParser.init mode).feedBytes (s.take i)).1.refresh_buffer
        = some buf → docOK buf :=
  parserOK_feed (s.take i) _ (parserOK_init mode)

/-- C7: `delete_backspace` removes a character only when
`insertion > lower_bound` and `insertion > 0`; it then removes exactly the
character at `insertion − 1` (an offset ≥ `lower_bound`) and decrements the
cursor; otherwise it is a no-op; in particular the prefix below
`lower_bound` is never touched. -/
theorem c7_delete_backspace (d : Document) (lb : Nat)
    (hok : d.insertion ≤ d.chars.length) :
    (d.insertion > lb ∧ d.insertion > 0 →
      (d.delete_backspace lb).chars
        = d.chars.take (d.insertion - 1) ++ d.chars.drop d.insertion ∧
      (d.delete_backspace lb).chars.length + 1 = d.chars.length ∧
      (d.delete_backspace lb).insertion = d.insertion - 1 ∧
      lb ≤ d.insertion - 1) ∧
    (¬(d.insertion > lb ∧ d.insertion > 0) → d.delete_backspace lb = d) ∧
    (d.delete_backspace lb).chars.take lb = d.chars.take lb := by
  refine ⟨fun hcond => ?_, fun hncond => ?_, ?_⟩
  · rw [Document.delete_backspace, if_pos hcond]
    refine ⟨rfl, ?_, rfl, by omega⟩
    show (d.chars.take (d.insertion - 1)
        ++ d.chars.drop d.insertion).length + 1 = _
    simp only [List.length_append, List.length_take, List.length_drop]
    omega
  · rw [Document.delete_backspace, if_neg hncond]
  · by_cases hcond : d.insertion > lb ∧ d.insertion > 0
    · rw [Document.delete_backspace, if_pos hcond]
      show (d.chars.take (d.insertion - 1)
          ++ d.chars.drop d.insertion).take lb = _
      rw [List.take_append_of_le_length
            (by simp only [List.length_take]; omega)]
      rw [List.take_take, Nat.min_eq_left (by omega)]
    · rw [Document.delete_backspace, if_neg hcond]

/-- C8 counterexample: the claim "ETX outside frames is never treated as a
text byte and leaves the document text unchanged" is false on the code —
feeding the single byte 0x03 to a fresh parser inserts the character with
code point 3. -/
theorem c8_counterexample :
    (LawBridgeParser.init .BUFFER).in_cmd = false ∧
    (LawBridgeParser.init .BUFFER).doc.chars = [] ∧
    ((LawBridgeParser.init .BUFFER).feedBytes [ETX]).1.doc.chars
      = [Char.ofNat 3] := by
  refine ⟨rfl, rfl, ?_⟩
  decide

/-- C8 (amended): outside any frame the byte 0x03 (ETX) is treated as an
ordinary ASCII text byte — it is inserted, as the character with code point
3, into the active edit target at its cursor, and never raises an error. -/
theorem c8_etx_amended (p : LawBridgeParser) (hin : p.in_cmd = false) :
    (p.processByte ETX).2 = none ∧
    ((p.state = .NORMAL ∨ p.refresh_mode = .STREAM) →
      (p.processByte ETX).1.doc.chars
        = p.doc.chars.take p.doc.insertion ++ [Char.ofNat 3]
          ++ p.doc.chars.drop p.doc.insertion) ∧
    (p.state = .REFRESH → p.refresh_mode = .BUFFER →
      ∀ buf, p.refresh_buffer = some buf →
      (p.processByte ETX).1.refresh_buffer
        = some (buf.insert_text [Char.ofNat 3])) := by
  have hstep : p.processByte ETX = (p.insertTextByte ETX, none) := by
    rw [processByte, if_neg (by simp [hin]),
        if_neg (by decide : ¬(ETX = STX))]
  rw [hstep]
  refine ⟨rfl, fun hcase => ?_, fun hR hB buf hb => ?_⟩
  · rcases hcase with hN | hS
    · rw [insertTextByte, applyToTarget_normal p _ hN]
      rfl
    · by_cases hN2 : p.state = .NORMAL
      · rw [insertTextByte, applyToTarget_normal p _ hN2]
        rfl
      · have hR2 : p.state = .REFRESH := by
          cases hps : p.state
          · exact absurd hps hN2
          · rfl
        rw [insertTextByte, applyToTarget_stream p _ hR2 hS]
        rfl
  · rw [insertTextByte, applyToTarget_some p _ buf hR hB hb]
    rfl

/-- C9: `K` in REFRESH sets `prevent_save` on the active target and mirrors
it to the main document at once; the BUFFER-mode `E` copies the scratch's
flag onto the main document by plain assignment, so a main flag set before
`R` and not re-set during the refresh is false after `E`. -/
theorem c9_prevent_save :
    (∀ p : LawBridgeParser, p.state = .REFRESH → p.in_cmd = false →
      (p.refresh_mode = .BUFFER → p.refresh_buffer.isSome) →
      (feedBytes p (frameBytes 75 [])).2 = none ∧
      (feedBytes p (frameBytes 75 [])).1.doc.prevent_save = true ∧
      (p.refresh_mode = .BUFFER → ∀ b2,
        (feedBytes p (frameBytes 75 [])).1.refresh_buffer = some b2 →
        b2.prevent_save = true)) ∧
    (∀ (p : LawBridgeParser) (s e : Nat) (buf : Document),
      p.state = .REFRESH → p.refresh_mode = .BUFFER → p.in_cmd = false →
      p.refresh_start_pos = some s → p.refresh_end_pos = some e →
      p.refresh_buffer = some buf →
      (feedBytes p (frameBytes 69 [])).2 = none ∧
      (feedBytes p (frameBytes 69 [])).1.doc.prevent_save
        = buf.prevent_save) ∧
    (∀ (p : LawBridgeParser) (pay : List Nat),
      p.state = .NORMAL → p.refresh_mode = .BUFFER → p.in_cmd = false →
      pay.length = 8 →
      (feedBytes p (frameBytes 82 pay ++ frameBytes 69 [])).2 = none ∧
      (feedBytes p (frameBytes 82 pay
        ++ frameBytes 69 [])).1.doc.prevent_save = false) := by
  refine ⟨?_, ?_, ?_⟩
  · intro p hst hin hsome
    cases hmm : p.refresh_mode with
    | BUFFER =>
      have hbs := hsome hmm
      rcases hb : p.refresh_buffer with _ | buf
      · rw [hb] at hbs; simp at hbs
      · rw [feed_K_refresh_buffer p buf hst hmm hin hb]
        refine ⟨rfl, rfl, fun _ b2 h2 => ?_⟩
        have hbe : Document.mk buf.chars buf.insertion buf.time_index
            buf.current_page buf.current_line buf.current_format true
            = b2 := by simpa using h2
        rw [← hbe]
    | STREAM =>
      rw [feed_K_refresh_stream p hst hmm hin]
      refine ⟨rfl, rfl, fun hB => ?_⟩
      exact absurd hB (by decide)
  · intro p s e buf hst hm hin hsp hep hb
    rw [feed_E_buffer p s e buf hst hm hin hsp hep hb]
    exact ⟨rfl, rfl⟩
  · intro p pay hst hm hin hlen
    rcases hres : resolveTimeRange p.doc (Timecode.from_bytes (pay.take 4))
      (Timecode.from_bytes (pay.drop 4)) with ⟨s, e⟩
    have h1 := feed_R_buffer p pay s e hst hm hin hlen hres
    rw [feedBytes_append (frameBytes 82 pay) (frameBytes 69 []) p _ h1]
    rw [feed_E_buffer
        { p with
            state := .REFRESH,
            refresh_start_tc := some (Timecode.from_bytes (pay.take 4)),
            refresh_end_tc := some (Timecode.from_bytes (pay.drop 4)),
            refresh_start_pos := some s, refresh_end_pos := some e,
            refresh_buffer := some (Document.init.set_insertion 0),
            in_cmd := false, expected_len := none, current_cmd := none,
            frame_buf := [] }
        s e (Document.init.set_insertion 0) rfl hm rfl rfl rfl rfl]
    exact ⟨rfl, rfl⟩

/-- C10: while a BUFFER-mode refresh is open, error-free bytes that keep the
parser in REFRESH leave the main document's characters, cursor, time index
and latched page/line/format unchanged; of the main document's state only
`prevent_save` can change (via the `K` mirror). -/
theorem c10_buffer_refresh_frames (p q : LawBridgeParser) (mid : List Nat)
    (hst : p.state = .REFRESH) (hm : p.refresh_mode = .BUFFER)
    (h : feedBytes p mid = (q, none)) (hstay : staysRefresh p mid = true) :
    q.doc.chars = p.doc.chars ∧ q.doc.insertion = p.doc.insertion ∧
    q.doc.time_index = p.doc.time_index ∧
    q.doc.current_page = p.doc.current_page ∧
    q.doc.current_line = p.doc.current_line ∧
    q.doc.current_format = p.doc.current_format := by
  obtain ⟨hfz, -⟩ := frozen_feed mid p q hst hm h hstay
  exact ⟨hfz.chars, hfz.insertion, hfz.time_index, hfz.page, hfz.line,
    hfz.fmt⟩

/-- Spec scenario 3's byte prelude: text "AA", a timecode at 0s, "BB", a
timecode at 1s, "CC". -/
def wPrelude : List Nat :=
  [65, 65] ++ frameBytes 84 [0, 0, 0, 0] ++ [66, 66] ++
    frameBytes 84 [0, 0, 1, 0] ++ [67, 67]

/-- The `R` payload for the range 0s..1s. -/
def wPay : List Nat := [0, 0, 0, 0, 0, 0, 1, 0]

def wBufP : LawBridgeParser :=
  (feedBytes (LawBridgeParser.init .BUFFER) wPrelude).1

def wBufP1 : LawBridgeParser := (feedBytes wBufP (frameBytes 82 wPay)).1

def wBufP2 : LawBridgeParser := (feedBytes wBufP1 [88, 89, 90]).1

def wStrP : LawBridgeParser :=
  (feedBytes (LawBridgeParser.init .STREAM) wPrelude).1

def wStrP1 : LawBridgeParser := (feedBytes wStrP (frameBytes 82 wPay)).1

theorem c2_buffer_refresh_atomic_witness :
    (feedBytes wBufP2 (frameBytes 69 [])).2 = none ∧
    (feedBytes wBufP2 (frameBytes 69 [])).1.doc.chars
      = wBufP.doc.chars.take 2 ++ [Char.ofNat 88, Char.ofNat 89,
          Char.ofNat 90] ++ wBufP.doc.chars.drop 4 ∧
    (feedBytes wBufP2 (frameBytes 69 [])).1.doc.chars.length
      = wBufP.doc.chars.length - (4 - 2)
        + [Char.ofNat 88, Char.ofNat 89, Char.ofNat 90].length :=
  c2_buffer_refresh_atomic wBufP wBufP1 wBufP2 wPay [88, 89, 90] 2 4
    [Char.ofNat 88, Char.ofNat 89, Char.ofNat 90]
    (by decide) (by decide) (by decide) (by decide) (by decide)
    (by decide) (by decide) (by decide) (by decide) (by decide)

theorem c3_stream_refresh_witness :
    ((feedBytes wStrP (frameBytes 82 wPay)).2 = none ∧
      (feedBytes wStrP (frameBytes 82 wPay)).1.doc.chars
        = wStrP.doc.chars.take 2 ++ wStrP.doc.chars.drop 4 ∧
      (feedBytes wStrP (frameBytes 82 wPay)).1.doc.insertion = 2 ∧
      (feedBytes wStrP (frameBytes 82 wPay)).1.refresh_lower_bound = 2 ∧
      (feedBytes wStrP (frameBytes 82 wPay)).1.state = .REFRESH) ∧
    ((feedBytes wStrP1 (frameBytes 69 [])).2 = none ∧
      (feedBytes wStrP1 (frameBytes 69 [])).1.doc.insertion
        = wStrP1.doc.chars.length ∧
      (feedBytes wStrP1 (frameBytes 69 [])).1.doc.chars
        = wStrP1.doc.chars ∧
      (feedBytes wStrP1 (frameBytes 69 [])).1.state = .NORMAL) :=
  ⟨c3_stream_refresh.1 wStrP wPay 2 4 (by decide) (by decide) (by decide)
      (by decide) (by decide),
    c3_stream_refresh.2 wStrP1 (by decide) (by decide) (by decide)⟩

theorem c4_chunking_witness :
    feedBytes (LawBridgeParser.init .BUFFER) ([72, 73] ++ [74, 2, 84]) =
      feedBytes ((feedBytes (LawBridgeParser.init .BUFFER) [72, 73]).1)
        [74, 2, 84] :=
  c4_chunking (LawBridgeParser.init .BUFFER)
    ((feedBytes (LawBridgeParser.init .BUFFER) [72, 73]).1)
    [72, 73] [74, 2, 84] (by decide)

theorem c5_nested_refresh_witness :
    (feedBytes wBufP1 (frameBytes 82 wPay)).2 = some .nestedRefresh ∧
    (feedBytes wBufP1 (frameBytes 82 wPay)).1.doc = wBufP1.doc :=
  c5_nested_refresh wBufP1 wPay (by decide) (by decide) (by decide)

theorem c6_cursor_invariant_witness :
    docOK ((LawBridgeParser.init .BUFFER).feedBytes
      ([72, 73, 74].take 2)).1.doc ∧
    ∀ buf, ((LawBridgeParser.init .BUFFER).feedBytes
      ([72, 73, 74].take 2)).1.refresh_buffer = some buf → docOK buf :=
  c6_cursor_invariant .BUFFER [72, 73, 74] 2

def c7wD : Document :=
  { chars := [Char.ofNat 97, Char.ofNat 98, Char.ofNat 99], insertion := 3,
    time_index := [], current_page := none, current_line := none,
    current_format := none, prevent_save := false }

theorem c7_delete_backspace_witness :
    (c7wD.insertion > 1 ∧ c7wD.insertion > 0 →
      (c7wD.delete_backspace 1).chars
        = c7wD.chars.take (c7wD.insertion - 1)
          ++ c7wD.chars.drop c7wD.insertion ∧
      (c7wD.delete_backspace 1).chars.length + 1 = c7wD.chars.length ∧
      (c7wD.delete_backspace 1).insertion = c7wD.insertion - 1 ∧
      1 ≤ c7wD.insertion - 1) ∧
    (¬(c7wD.insertion > 1 ∧ c7wD.insertion > 0) →
      c7wD.delete_backspace 1 = c7wD) ∧
    (c7wD.delete_backspace 1).chars.take 1 = c7wD.chars.take 1 :=
  c7_delete_backspace c7wD 1 (by decide)

theorem c8_etx_amended_witness :
    ((LawBridgeParser.init .BUFFER).processByte ETX).2 = none ∧
    (((LawBridgeParser.init .BUFFER).state = .NORMAL ∨
        (LawBridgeParser.init .BUFFER).refresh_mode = .STREAM) →
      ((LawBridgeParser.init .BUFFER).processByte ETX).1.doc.chars
        = (LawBridgeParser.init .BUFFER).doc.chars.take
            (LawBridgeParser.init .BUFFER).doc.insertion
          ++ [Char.ofNat 3]
          ++ (LawBridgeParser.init .BUFFER).doc.chars.drop
            (LawBridgeParser.init .BUFFER).doc.insertion) ∧
    ((LawBridgeParser.init .BUFFER).state = .REFRESH →
      (LawBridgeParser.init .BUFFER).refresh_mode = .BUFFER →
      ∀ buf, (LawBridgeParser.init .BUFFER).refresh_buffer = some buf →
      ((LawBridgeParser.init .BUFFER).processByte ETX).1.refresh_buffer
        = some (buf.insert_text [Char.ofNat 3])) :=
  c8_etx_amended (LawBridgeParser.init .BUFFER) (by decide)

theorem c9_prevent_save_witness :
    ((feedBytes wBufP1 (frameBytes 75 [])).2 = none ∧
      (feedBytes wBufP1 (frameBytes 75 [])).1.doc.prevent_save = true ∧
      (wBufP1.refresh_mode = .BUFFER → ∀ b2,
        (feedBytes wBufP1 (frameBytes 75 [])).1.refresh_buffer = some b2 →
        b2.prevent_save = true)) ∧
    ((feedBytes wBufP1 (frameBytes 69 [])).2 = none ∧
      (feedBytes wBufP1 (frameBytes 69 [])).1.doc.prevent_save
        = (Document.init.set_insertion 0).prevent_save) ∧
    ((feedBytes wBufP (frameBytes 82 wPay ++ frameBytes 69 [])).2 = none ∧
      (feedBytes wBufP (frameBytes 82 wPay
        ++ frameBytes 69 [])).1.doc.prevent_save = false) :=
  ⟨c9_prevent_save.1 wBufP1 (by decide) (by decide) (by decide),
    c9_prevent_save.2.1 wBufP1 2 4 (Document.init.set_insertion 0)
      (by decide) (by decide) (by decide) (by decide) (by decide)
      (by decide),
    c9_prevent_save.2.2 wBufP wPay (by decide) (by decide) (by decide)
      (by decide)⟩

theorem c10_buffer_refresh_frames_witness :
    wBufP2.doc.chars = wBufP1.doc.chars ∧
    wBufP2.doc.insertion = wBufP1.doc.insertion ∧
    wBufP2.doc.time_index = wBufP1.doc.time_index ∧
    wBufP2.doc.current_page = wBufP1.doc.current_page ∧
    wBufP2.doc.current_line = wBufP1.doc.current_line ∧
    wBufP2.doc.current_format = wBufP1.doc.current_format :=
  c10_buffer_refresh_frames wBufP1 wBufP2 [88, 89, 90]
    (by decide) (by decide) (by decide) (by decide)
